import Mathlib

/-!
Verification development for the MuJoCo-GS-Web AI server core:
the WebSocket command relay (correlation ids, pending-command table,
timers), the tool dispatcher (`executeTool`), the tool-result content
builder (`_buildToolResultContent`) and the agentic loop
(`AIController.processMessage`), shallowly embedded from the
JavaScript source.

Conventions of the embedding:
* JavaScript values are modelled by the inductive `Value`
  (with `undefined` for `undefined`); numbers are rationals.
* Stateful server code becomes explicit state passing: the relay is a
  step function on `RelayState` driven by a trace of `RelayEvent`s
  (connection arrival, socket close, message receipt, command send,
  timer expiry, clock tick).  Promise settlement is recorded in a
  `settled` log; active `setTimeout` timers are an explicit list.
* `async` functions that can reject are modelled with `Except`.
-/

/-- JavaScript runtime values (JSON plus `undefined`).  Numbers are
modelled as rationals. -/
inductive Value where
  | undefined
  | null
  | bool (b : Bool)
  | num (q : Rat)
  | str (s : String)
  | arr (elements : List Value)
  | obj (fields : List (String × Value))

mutual

/-- Decidable equality on `Value` (not derivable for this nested inductive). -/
def Value.decEq : (a b : Value) → Decidable (a = b)
  | .undefined, .undefined => .isTrue rfl
  | .null, .null => .isTrue rfl
  | .bool a, .bool b =>
    if h : a = b then .isTrue (h ▸ rfl)
    else .isFalse (fun he => h (Value.bool.inj he))
  | .num a, .num b =>
    if h : a = b then .isTrue (h ▸ rfl)
    else .isFalse (fun he => h (Value.num.inj he))
  | .str a, .str b =>
    if h : a = b then .isTrue (h ▸ rfl)
    else .isFalse (fun he => h (Value.str.inj he))
  | .arr a, .arr b =>
    match Value.decEqList a b with
    | .isTrue h => .isTrue (h ▸ rfl)
    | .isFalse h => .isFalse (fun he => h (Value.arr.inj he))
  | .obj a, .obj b =>
    match Value.decEqFields a b with
    | .isTrue h => .isTrue (h ▸ rfl)
    | .isFalse h => .isFalse (fun he => h (Value.obj.inj he))
  | .undefined, .null => .isFalse nofun
  | .undefined, .bool _ => .isFalse nofun
  | .undefined, .num _ => .isFalse nofun
  | .undefined, .str _ => .isFalse nofun
  | .undefined, .arr _ => .isFalse nofun
  | .undefined, .obj _ => .isFalse nofun
  | .null, .undefined => .isFalse nofun
  | .null, .bool _ => .isFalse nofun
  | .null, .num _ => .isFalse nofun
  | .null, .str _ => .isFalse nofun
  | .null, .arr _ => .isFalse nofun
  | .null, .obj _ => .isFalse nofun
  | .bool _, .undefined => .isFalse nofun
  | .bool _, .null => .isFalse nofun
  | .bool _, .num _ => .isFalse nofun
  | .bool _, .str _ => .isFalse nofun
  | .bool _, .arr _ => .isFalse nofun
  | .bool _, .obj _ => .isFalse nofun
  | .num _, .undefined => .isFalse nofun
  | .num _, .null => .isFalse nofun
  | .num _, .bool _ => .isFalse nofun
  | .num _, .str _ => .isFalse nofun
  | .num _, .arr _ => .isFalse nofun
  | .num _, .obj _ => .isFalse nofun
  | .str _, .undefined => .isFalse nofun
  | .str _, .null => .isFalse nofun
  | .str _, .bool _ => .isFalse nofun
  | .str _, .num _ => .isFalse nofun
  | .str _, .arr _ => .isFalse nofun
  | .str _, .obj _ => .isFalse nofun
  | .arr _, .undefined => .isFalse nofun
  | .arr _, .null => .isFalse nofun
  | .arr _, .bool _ => .isFalse nofun
  | .arr _, .num _ => .isFalse nofun
  | .arr _, .str _ => .isFalse nofun
  | .arr _, .obj _ => .isFalse nofun
  | .obj _, .undefined => .isFalse nofun
  | .obj _, .null => .isFalse nofun
  | .obj _, .bool _ => .isFalse nofun
  | .obj _, .num _ => .isFalse nofun
  | .obj _, .str _ => .isFalse nofun
  | .obj _, .arr _ => .isFalse nofun

/-- Decidable equality on lists of values. -/
def Value.decEqList : (a b : List Value) → Decidable (a = b)
  | [], [] => .isTrue rfl
  | [], _ :: _ => .isFalse nofun
  | _ :: _, [] => .isFalse nofun
  | a :: as, b :: bs =>
    match Value.decEq a b, Value.decEqList as bs with
    | .isTrue h1, .isTrue h2 => .isTrue (h1 ▸ h2 ▸ rfl)
    | .isFalse h1, _ => .isFalse (fun he => h1 (List.cons.inj he).1)
    | _, .isFalse h2 => .isFalse (fun he => h2 (List.cons.inj he).2)

/-- Decidable equality on object field lists. -/
def Value.decEqFields : (a b : List (String × Value)) → Decidable (a = b)
  | [], [] => .isTrue rfl
  | [], _ :: _ => .isFalse nofun
  | _ :: _, [] => .isFalse nofun
  | (k, v) :: as, (l, w) :: bs =>
    if h0 : k = l then
      match Value.decEq v w, Value.decEqFields as bs with
      | .isTrue h1, .isTrue h2 => .isTrue (h0 ▸ h1 ▸ h2 ▸ rfl)
      | .isFalse h1, _ =>
        .isFalse (fun he => h1 (congrArg Prod.snd (List.cons.inj he).1))
      | _, .isFalse h2 => .isFalse (fun he => h2 (List.cons.inj he).2)
    else .isFalse (fun he => h0 (congrArg Prod.fst (List.cons.inj he).1))

end

instance : DecidableEq Value := Value.decEq

instance : Repr Value := ⟨fun _ _ => Std.Format.text "<value>"⟩

/-- JavaScript property access `v[k]`: field lookup on objects, `undefined`
otherwise (the embedding is total where JS would throw on `null`). -/
def getField (v : Value) (k : String) : Value :=
  match v with
  | .obj fields =>
    match fields.lookup k with
    | some x => x
    | none => .undefined
  | _ => .undefined

/-- JavaScript truthiness of a value. -/
def truthy : Value → Bool
  | .undefined => false
  | .null => false
  | .bool b => b
  | .num q => q ≠ 0
  | .str s => s ≠ ""
  | .arr _ => true
  | .obj _ => true

/-- JavaScript nullish test (`undefined` or `null`). -/
def nullish : Value → Bool
  | .undefined => true
  | .null => true
  | _ => false

/-- JavaScript nullish coalescing `a ?? b`. -/
def coalesce (a b : Value) : Value := if nullish a then b else a

/-- JavaScript optional chaining `v?.k`. -/
def optChain (v : Value) (k : String) : Value :=
  if nullish v then .undefined else getField v k

/-- JavaScript object-literal spread `\x7b...v\x7d`: objects copy their
fields, arrays and strings spread to index-keyed fields, primitives
contribute nothing. -/
def spreadFields : Value → List (String × Value)
  | .obj fields => fields
  | .arr es => (es.enum.map fun p => (toString p.1, p.2))
  | .str s => (s.toList.enum.map fun p => (toString p.1, Value.str (String.singleton p.2)))
  | _ => []

/-! ## TransportRelay (server.js lines 283-354)

State owned by the relay: `simulationSocket`, `pendingCommands`,
`commandIdCounter`; plus bookkeeping that makes the embedding
observable: the set of sockets that have passed through
`wss.on('connection')` (`handlers`), the sockets whose close handler
has already fired (`closedHandled`), each socket's readyState, the
active `setTimeout` timers, the transmitted wire frames and a log of
promise settlements. -/

/-- WebSocket readyState values. -/
inductive ReadyState where
  | CONNECTING
  | OPEN
  | CLOSING
  | CLOSED
deriving DecidableEq, Repr

/-- An entry of the `pendingCommands` map: the correlation id together
with the action and timeout captured when the command was sent. -/
structure PendingEntry where
  id : Nat
  action : String
  timeoutMs : Nat
deriving DecidableEq, Repr

/-- An active `setTimeout` timer started by `sendCommandToSim`; the
`action` and `timeoutMs` fields model the values captured by the timer
callback's closure; it may fire once `createdAt + timeoutMs ≤ now`. -/
structure TimerEntry where
  id : Nat
  createdAt : Nat
  timeoutMs : Nat
  action : String
deriving DecidableEq, Repr

/-- How a pending command's promise was settled. -/
inductive Settlement where
  | resolved (result : Value)
  | rejectedTimeout (action : String) (timeoutMs : Nat)
  | rejectedDisconnected
deriving DecidableEq, Repr

/-- A wire frame `\x7btype:"command", id, action, params\x7d` transmitted to
the simulation socket. -/
structure WireCommand where
  id : Nat
  action : String
  params : Value
deriving DecidableEq, Repr

/-- The relay's state.  `sent` and `settled` are logs, newest first. -/
structure RelayState where
  simulationSocket : Option Nat
  socketReady : List (Nat × ReadyState)
  handlers : List Nat
  closedHandled : List Nat
  pendingCommands : List PendingEntry
  timers : List TimerEntry
  commandIdCounter : Nat
  sent : List WireCommand
  settled : List (Nat × Settlement)
  now : Nat
deriving DecidableEq, Repr

/-- Initial relay state (`simulationSocket = null`, empty map, counter 0). -/
def relayInit : RelayState :=
  { simulationSocket := none
    socketReady := []
    handlers := []
    closedHandled := []
    pendingCommands := []
    timers := []
    commandIdCounter := 0
    sent := []
    settled := []
    now := 0 }

/-- Current readyState of a socket (unknown sockets read as CLOSED). -/
def readyStateOf (st : RelayState) (sid : Nat) : ReadyState :=
  match st.socketReady.lookup sid with
  | some rs => rs
  | none => .CLOSED

/-- Messages a simulation socket can deliver to the server. -/
inductive WsMessage where
  | commandResult (id : Nat) (result : Value)
  | other
deriving DecidableEq, Repr

/-- The `wss.on('connection')` handler body: store the new socket as the
active simulation socket (and remember that its message/close handlers
are now registered). -/
def handleConnection (st : RelayState) (sid : Nat) : RelayState :=
  { st with simulationSocket := some sid, handlers := sid :: st.handlers }

/-- The `ws.on('message')` handler body: a `command_result` whose id
matches a pending command cancels its timer, removes it from the table
and resolves it; anything else does nothing. -/
def handleMessage (st : RelayState) (msg : WsMessage) : RelayState :=
  match msg with
  | .commandResult id result =>
    match st.pendingCommands.find? (fun p => p.id = id) with
    | some _ =>
      { st with
          timers := st.timers.filter (fun t => t.id ≠ id)
          pendingCommands := st.pendingCommands.filter (fun p => p.id ≠ id)
          settled := (id, Settlement.resolved result) :: st.settled }
    | none => st
  | .other => st

/-- The `ws.on('close')` handler body: null the stored handle only if
the closing socket is the currently registered one, then
unconditionally cancel every pending command's timer, reject every
pending command with the disconnection error, and clear the table. -/
def handleClose (st : RelayState) (sid : Nat) : RelayState :=
  let st1 := if st.simulationSocket = some sid then { st with simulationSocket := none } else st
  let pids := st1.pendingCommands.map (fun p => p.id)
  { st1 with
      timers := st1.timers.filter (fun t => ¬ t.id ∈ pids)
      settled := (st1.pendingCommands.map fun p => (p.id, Settlement.rejectedDisconnected)) ++ st1.settled
      pendingCommands := [] }

/-- Result of a `sendCommandToSim` call as observed by its caller. -/
inductive SendOutcome where
  | rejectedNotConnected (msg : String)
  | sent (id : Nat)
deriving DecidableEq, Repr

/-- The immediate-rejection message of `sendCommandToSim`. -/
def notConnectedMsg : String :=
  "Simulation not connected. Please open the simulation in a browser."

/-- `sendCommandToSim(action, params, timeout)`: reject immediately when
no socket is stored or the stored socket's readyState is not OPEN;
otherwise allocate the next correlation id, start the timeout timer,
store the waiter and transmit the wire frame. -/
def sendCommandToSim (st : RelayState) (action : String) (params : Value)
    (timeout : Nat) : RelayState × SendOutcome :=
  match st.simulationSocket with
  | none => (st, .rejectedNotConnected notConnectedMsg)
  | some sid =>
    if readyStateOf st sid ≠ ReadyState.OPEN then
      (st, .rejectedNotConnected notConnectedMsg)
    else
      let id := st.commandIdCounter
      ({ st with
          commandIdCounter := id + 1
          timers := ⟨id, st.now, timeout, action⟩ :: st.timers
          pendingCommands := ⟨id, action, timeout⟩ :: st.pendingCommands
          sent := ⟨id, action, params⟩ :: st.sent }, .sent id)

/-- The timeout timer callback of `sendCommandToSim`: once its deadline
has passed, an active timer removes its command from the table and
rejects it with the timeout error naming the action and timeout
captured in its closure. -/
def fireTimer (st : RelayState) (id : Nat) : RelayState :=
  match st.timers.find? (fun t => t.id = id) with
  | none => st
  | some t =>
    if t.createdAt + t.timeoutMs ≤ st.now then
      { st with
          timers := st.timers.filter (fun x => x.id ≠ id)
          pendingCommands := st.pendingCommands.filter (fun p => p.id ≠ id)
          settled := (id, Settlement.rejectedTimeout t.action t.timeoutMs) :: st.settled }
    else st

/-- Events driving the relay: a new simulation connection, a message on
a connected socket, an underlying socket close (firing the registered
close handler once), a `sendCommandToSim` call, a timer expiry, the
clock advancing, and the environment changing a socket's readyState. -/
inductive RelayEvent where
  | connect (sid : Nat)
  | message (msg : WsMessage)
  | wsClose (sid : Nat)
  | send (action : String) (params : Value) (timeout : Nat)
  | timerFire (id : Nat)
  | tick (dt : Nat)
  | setReady (sid : Nat) (rs : ReadyState)
deriving DecidableEq, Repr

/-- One step of the relay machine. -/
def relayStep (st : RelayState) (e : RelayEvent) : RelayState :=
  match e with
  | .connect sid =>
    if sid ∈ st.handlers then st
    else handleConnection { st with socketReady := (sid, ReadyState.OPEN) :: st.socketReady } sid
  | .message msg => handleMessage st msg
  | .wsClose sid =>
    if sid ∈ st.handlers ∧ ¬ sid ∈ st.closedHandled then
      handleClose
        { st with
            closedHandled := sid :: st.closedHandled
            socketReady := (sid, ReadyState.CLOSED) :: st.socketReady } sid
    else st
  | .send action params timeout => (sendCommandToSim st action params timeout).1
  | .timerFire id => fireTimer st id
  | .tick dt => { st with now := st.now + dt }
  | .setReady sid rs =>
    if sid ∈ st.handlers then { st with socketReady := (sid, rs) :: st.socketReady } else st

/-- Run the relay machine over a trace of events. -/
def relayRun (st : RelayState) (tr : List RelayEvent) : RelayState :=
  tr.foldl relayStep st

/-- A relay state reachable from the initial state by some event trace. -/
def RelayReachable (st : RelayState) : Prop :=
  ∃ tr : List RelayEvent, st = relayRun relayInit tr

/-- Correlation ids currently in the pending-command table. -/
def pendingIds (st : RelayState) : List Nat := st.pendingCommands.map (fun p => p.id)

/-- Correlation ids with an active timer. -/
def timerIds (st : RelayState) : List Nat := st.timers.map (fun t => t.id)

/-- Correlation ids whose promise has settled. -/
def settledIds (st : RelayState) : List Nat := st.settled.map (fun s => s.1)

/-- Correlation ids of transmitted wire frames, newest first. -/
def sentIds (st : RelayState) : List Nat := st.sent.map (fun c => c.id)

/-! ## JSON serialization and string conversion

Models of `JSON.stringify(value, null, 2)` and of JavaScript string
coercion (template literals), used by the tool-result builder. -/

/-- Escape a character for a JSON string literal (the common escapes;
exotic control characters do not occur in this development). -/
def jsonEscapeChar (c : Char) : String :=
  if c = '"' then "\\\""
  else if c = '\\' then "\\\\"
  else if c = '\n' then "\\n"
  else if c = '\r' then "\\r"
  else if c = '\t' then "\\t"
  else String.singleton c

/-- Escape a string for inclusion in JSON output. -/
def jsonEscape (s : String) : String := String.join (s.toList.map jsonEscapeChar)

/-- Decimal rendering of a rational: integers render as in JavaScript;
non-integers (which never arise in the statements below) render as a
fraction. -/
def ratToString (q : Rat) : String :=
  if q.den = 1 then toString q.num else toString q.num ++ "/" ++ toString q.den

/-- Indentation produced by `JSON.stringify(_, null, 2)` at a nesting level. -/
def jsonIndent (lvl : Nat) : String := String.join (List.replicate lvl "  ")

/-- Assemble a pretty-printed JSON array from its rendered elements
(`undefined` elements render as `null`, as in JavaScript). -/
def renderJsonArr (items : List (Option String)) (lvl : Nat) : String :=
  match items with
  | [] => "[]"
  | _ =>
    let rendered := items.map (fun o => o.getD "null")
    "[\n" ++ jsonIndent (lvl + 1) ++
      String.intercalate (",\n" ++ jsonIndent (lvl + 1)) rendered ++
      "\n" ++ jsonIndent lvl ++ "]"

/-- Assemble a pretty-printed JSON object from its rendered fields
(fields whose value rendered to nothing, i.e. `undefined`, are dropped,
as in JavaScript). -/
def renderJsonObj (fields : List (String × Option String)) (lvl : Nat) : String :=
  let rendered := fields.filterMap
    (fun kv => kv.2.map (fun s => "\"" ++ jsonEscape kv.1 ++ "\": " ++ s))
  match rendered with
  | [] => "\x7b\x7d"
  | _ =>
    "\x7b\n" ++ jsonIndent (lvl + 1) ++
      String.intercalate (",\n" ++ jsonIndent (lvl + 1)) rendered ++
      "\n" ++ jsonIndent lvl ++ "\x7d"

mutual

/-- `JSON.stringify(v, null, 2)` at a nesting level; `none` models the
`undefined` return for non-serializable input. -/
def jsonStringify : Value → Nat → Option String
  | .undefined, _ => none
  | .null, _ => some "null"
  | .bool b, _ => some (if b then "true" else "false")
  | .num q, _ => some (ratToString q)
  | .str s, _ => some ("\"" ++ jsonEscape s ++ "\"")
  | .arr es, lvl => some (renderJsonArr (jsonStringifyList es (lvl + 1)) lvl)
  | .obj fs, lvl => some (renderJsonObj (jsonStringifyFields fs (lvl + 1)) lvl)

/-- Stringify each element of an array. -/
def jsonStringifyList : List Value → Nat → List (Option String)
  | [], _ => []
  | v :: vs, lvl => jsonStringify v lvl :: jsonStringifyList vs lvl

/-- Stringify each field value of an object. -/
def jsonStringifyFields : List (String × Value) → Nat → List (String × Option String)
  | [], _ => []
  | (k, v) :: fs, lvl => (k, jsonStringify v lvl) :: jsonStringifyFields fs lvl

end

mutual

/-- JavaScript string coercion as in a template literal. -/
def jsToString : Value → String
  | .undefined => "undefined"
  | .null => "null"
  | .bool b => if b then "true" else "false"
  | .num q => ratToString q
  | .str s => s
  | .arr es => String.intercalate "," (jsToStringList es)
  | .obj _ => "[object Object]"

/-- Array elements under string coercion (`null`/`undefined` render empty). -/
def jsToStringList : List Value → List String
  | [] => []
  | .undefined :: vs => "" :: jsToStringList vs
  | .null :: vs => "" :: jsToStringList vs
  | v :: vs => jsToString v :: jsToStringList vs

end

/-! ## ToolDispatcher (tools.js)

`executeTool` is embedded as a pure function; the `sendCommand`
collaborator is a function value, and the relay calls issued during the
dispatch are returned alongside the result so that theorems can speak
about the call that was made. -/

/-- Default timeout for blocking commands (ms), from tools.js. -/
def COMMAND_TIMEOUT : Nat := 30000

/-- A JavaScript error as observed by a `catch` handler: its `message`
property and its `String(err)` rendering. -/
structure JsError where
  message : String
  asString : String
deriving DecidableEq, Repr

/-- The expression `err.message || String(err)` from the catch block of
`executeTool`. -/
def errMessage (e : JsError) : String :=
  if e.message = "" then e.asString else e.message

/-- The `sendCommand` collaborator passed to `executeTool`
(`sendCommandToSim` bound on the server side): an async function whose
rejection is modelled with `Except.error`. -/
def SendFn : Type := String → Value → Nat → Except JsError Value

/-- One call made through the relay: action, params and timeout. -/
structure RelayCall where
  action : String
  params : Value
  timeoutMs : Nat
deriving DecidableEq, Repr

/-- The switch body of `executeTool`, before the surrounding
try/catch: the result of the (single) `sendCommand` call of the
matched branch, paired with the list of relay calls issued. -/
def executeToolBody (toolName : String) (toolInput : Value) (sendCommand : SendFn)
    (dataSourceOverrides : Value) : Except JsError Value × List RelayCall :=
  match toolName with
  | "observe_scene" =>
    let sources : Value := .obj
      [("head_camera",
          coalesce (coalesce (optChain (getField toolInput "sources") "head_camera")
              (getField dataSourceOverrides "head_camera")) (.bool true)),
       ("orbit_camera",
          coalesce (coalesce (optChain (getField toolInput "sources") "orbit_camera")
              (getField dataSourceOverrides "orbit_camera")) (.bool true)),
       ("state_data",
          coalesce (coalesce (optChain (getField toolInput "sources") "state_data")
              (getField dataSourceOverrides "state_data")) (.bool true))]
    let params : Value := .obj [("sources", sources)]
    (sendCommand "observe_scene" params COMMAND_TIMEOUT,
      [⟨"observe_scene", params, COMMAND_TIMEOUT⟩])
  | "move_base" =>
    let params : Value := .obj
      [("direction", getField toolInput "direction"),
       ("amount", getField toolInput "amount")]
    (sendCommand "move_base" params COMMAND_TIMEOUT, [⟨"move_base", params, COMMAND_TIMEOUT⟩])
  | "move_arm" =>
    let params : Value := .obj
      [("arm", getField toolInput "arm"),
       ("x", getField toolInput "x"),
       ("y", getField toolInput "y")]
    (sendCommand "move_arm" params COMMAND_TIMEOUT, [⟨"move_arm", params, COMMAND_TIMEOUT⟩])
  | "set_gripper" =>
    let params : Value := .obj
      [("arm", getField toolInput "arm"),
       ("state", getField toolInput "state")]
    (sendCommand "set_gripper" params COMMAND_TIMEOUT, [⟨"set_gripper", params, COMMAND_TIMEOUT⟩])
  | "move_head" =>
    let params : Value := .obj
      [("pan", getField toolInput "pan"),
       ("tilt", getField toolInput "tilt")]
    (sendCommand "move_head" params COMMAND_TIMEOUT, [⟨"move_head", params, COMMAND_TIMEOUT⟩])
  | "get_robot_state" =>
    (sendCommand "get_robot_state" (.obj []) COMMAND_TIMEOUT,
      [⟨"get_robot_state", .obj [], COMMAND_TIMEOUT⟩])
  | "get_scene_objects" =>
    (sendCommand "get_scene_objects" (.obj []) COMMAND_TIMEOUT,
      [⟨"get_scene_objects", .obj [], COMMAND_TIMEOUT⟩])
  | "navigate_to" =>
    let params : Value := .obj
      [("target", getField toolInput "target"),
       ("stop_distance", coalesce (getField toolInput "stop_distance") (.num (3 / 10)))]
    (sendCommand "navigate_to" params (COMMAND_TIMEOUT * 2),
      [⟨"navigate_to", params, COMMAND_TIMEOUT * 2⟩])
  | "reset_robot" =>
    (sendCommand "reset_robot" (.obj []) COMMAND_TIMEOUT,
      [⟨"reset_robot", .obj [], COMMAND_TIMEOUT⟩])
  | _ => (.ok (.obj [("error", .str ("Unknown tool: " ++ toolName))]), [])

/-- `executeTool`: the switch wrapped in try/catch, reducing any
rejection to an `\x7berror: message\x7d` result. -/
def executeTool (toolName : String) (toolInput : Value) (sendCommand : SendFn)
    (dataSourceOverrides : Value) : Value × List RelayCall :=
  match executeToolBody toolName toolInput sendCommand dataSourceOverrides with
  | (.ok v, calls) => (v, calls)
  | (.error e, calls) => (.obj [("error", .str (errMessage e))], calls)

/-- The tool names registered in the switch of `executeTool`. -/
def knownToolNames : List String :=
  ["observe_scene", "move_base", "move_arm", "set_gripper", "move_head",
   "get_robot_state", "get_scene_objects", "navigate_to", "reset_robot"]

/-! ## Tool-result content builder (ai-controller.js `_buildToolResultContent`) -/

/-- A content block of a ToolResult: text, or a base64 image with its
media type. -/
inductive ContentBlock where
  | text (text : String)
  | image (mediaType : String) (data : Value)
deriving DecidableEq, Repr

/-- The object `\x7b...result\x7d` after `delete` of the two camera-image
fields: the data remaining for the trailing serialized block. -/
def dataFields (result : Value) : List (String × Value) :=
  (spreadFields result).filter fun kv =>
    kv.1 ≠ "head_camera_image" ∧ kv.1 ≠ "orbit_camera_image"

/-- `AIController._buildToolResultContent(toolName, result)`: error
short-circuit, camera images with captions, remaining fields serialized
as JSON, and a default success block when nothing was produced. -/
def buildToolResultContent (toolName : String) (result : Value) : List ContentBlock :=
  let _ := toolName
  if truthy (getField result "error") then
    [ContentBlock.text ("Error: " ++ jsToString (getField result "error"))]
  else
    let c1 : List ContentBlock :=
      if truthy (getField result "head_camera_image") then
        [ContentBlock.image "image/png" (getField result "head_camera_image"),
         ContentBlock.text "[Head camera view above]"]
      else []
    let c2 : List ContentBlock :=
      if truthy (getField result "orbit_camera_image") then
        c1 ++ [ContentBlock.image "image/png" (getField result "orbit_camera_image"),
               ContentBlock.text "[Orbit camera view above]"]
      else c1
    let dataResult := dataFields result
    let c3 : List ContentBlock :=
      if 0 < dataResult.length then
        c2 ++ [ContentBlock.text ((jsonStringify (Value.obj dataResult) 0).getD "undefined")]
      else c2
    if c3.length = 0 then [ContentBlock.text "Command executed successfully."] else c3

/-- The spec's Result→ToolResult mapping rule (spec §4.3), stated from
the spec's words for comparison with the implementation, with the
amendments forced by the counterexample for C4: the error short-circuit
and the image-field rule apply to fields carrying a truthy value (a
falsy `error` field falls through to the serialized trailing block),
and the two camera-image fields are excluded from the trailing
serialized block whatever their value, so a falsy camera-image field
contributes no block at all. -/
def specToolResultContent (result : Value) : List ContentBlock :=
  if truthy (getField result "error") then
    [ContentBlock.text ("Error: " ++ jsToString (getField result "error"))]
  else
    let imageBlocks : List ContentBlock :=
      (if truthy (getField result "head_camera_image") then
        [ContentBlock.image "image/png" (getField result "head_camera_image"),
         ContentBlock.text "[Head camera view above]"]
       else []) ++
      (if truthy (getField result "orbit_camera_image") then
        [ContentBlock.image "image/png" (getField result "orbit_camera_image"),
         ContentBlock.text "[Orbit camera view above]"]
       else [])
    let remaining := dataFields result
    let trailing : List ContentBlock :=
      if remaining.length ≠ 0 then
        [ContentBlock.text ((jsonStringify (Value.obj remaining) 0).getD "undefined")]
      else []
    let blocks := imageBlocks ++ trailing
    if blocks = [] then [ContentBlock.text "Command executed successfully."] else blocks

/-! ## AgentLoop (ai-controller.js `processMessage`)

The loop is embedded as a fuel-indexed recursion (the fuel is the
`maxIterations = 20` counter).  The Claude client and the relay send
function are collaborators passed as function values; the abort signal
is modelled as a predicate sampled at each cancellation checkpoint, in
checkpoint order (`checkIdx` counts the samples taken).  Stream events
and relay calls are accumulated in chronological order. -/

/-- A content block of a model response: text or a tool invocation. -/
inductive RespBlock where
  | text (text : String)
  | toolUse (id : String) (name : String) (input : Value)
deriving DecidableEq, Repr

/-- One model turn: content blocks and a stop reason. -/
structure ModelResponse where
  content : List RespBlock
  stop_reason : String
deriving DecidableEq, Repr

/-- The Claude client as a function from conversation history to the
next model turn. -/
def ModelFn : Type := List (String × Value) → ModelResponse

/-- Conversation history entries `\x7brole, content\x7d`; the content of each
entry is rendered as a `Value` so one list type covers plain user text,
assistant blocks and batched tool results. -/
def userTextMsg (s : String) : String × Value := ("user", .str s)

/-- Render assistant response blocks as a history entry. -/
def assistantMsg (content : List RespBlock) : String × Value :=
  ("assistant", .arr (content.map fun b =>
    match b with
    | .text s => .obj [("type", .str "text"), ("text", .str s)]
    | .toolUse id name input =>
      .obj [("type", .str "tool_use"), ("id", .str id), ("name", .str name),
            ("input", input)]))

/-- Render one `tool_result` entry of the batched user message. -/
def toolResultValue (toolUseId : String) (content : List ContentBlock) : Value :=
  .obj [("type", .str "tool_result"), ("tool_use_id", .str toolUseId),
        ("content", .arr (content.map fun b =>
          match b with
          | .text s => .obj [("type", .str "text"), ("text", .str s)]
          | .image mt d =>
            .obj [("type", .str "image"),
                  ("source", .obj [("type", .str "base64"), ("media_type", .str mt),
                                   ("data", d)])]))]

/-- Events written to the chat response stream. -/
inductive StreamEvent where
  | status (text : String)
  | text (text : String)
  | toolCall (name : String) (input : Value)
  | done (text : String)
  | aborted (text : String)
  | error (text : String)
deriving DecidableEq, Repr

/-- The in-flight state of one `processMessage` call. -/
structure LoopState where
  history : List (String × Value)
  finalText : String
  checkIdx : Nat
  events : List StreamEvent
  relayLog : List RelayCall
  modelCalls : Nat
deriving Repr

/-- How `processMessage` ends: normal return, or the `AbortError` throw. -/
inductive LoopOutcome where
  | finished
  | abortedErr
deriving DecidableEq, Repr

/-- Whether a response block is a tool invocation. -/
def isToolUse : RespBlock → Bool
  | .toolUse _ _ _ => true
  | .text _ => false

/-- The text segments of a model turn, in order. -/
def textsOf (content : List RespBlock) : List String :=
  content.filterMap fun b => match b with | .text s => some s | _ => none

/-- The stream events emitted while iterating a model turn's blocks. -/
def blockEvents (content : List RespBlock) : List StreamEvent :=
  content.map fun b =>
    match b with
    | .text s => .text s
    | .toolUse _ name input => .toolCall name input

/-- Sequential tool execution (the `for (const toolBlock of
toolUseBlocks)` loop): checks cancellation before and after each
dispatch; `none` in the second component models the `AbortError`
throw. -/
def execTools (sendCommand : SendFn) (overrides : Value) (signal : Nat → Bool) :
    List RespBlock → LoopState → List Value → LoopState × Option (List Value)
  | [], st, acc => (st, some acc)
  | .text _ :: rest, st, acc => execTools sendCommand overrides signal rest st acc
  | .toolUse bid bname binput :: rest, st, acc =>
    if signal st.checkIdx then (st, none)
    else
      let st1 : LoopState :=
        { st with
            checkIdx := st.checkIdx + 1
            events := st.events ++ [.status ("Executing: " ++ bname ++ "...")] }
      let r := executeTool bname binput sendCommand overrides
      let st2 : LoopState := { st1 with relayLog := st1.relayLog ++ r.2 }
      if signal st2.checkIdx then (st2, none)
      else
        let st3 : LoopState := { st2 with checkIdx := st2.checkIdx + 1 }
        execTools sendCommand overrides signal rest st3
          (acc ++ [toolResultValue bid (buildToolResultContent bname r.1)])

/-- The `while (maxIterations-- > 0)` loop body of `processMessage`,
indexed by the remaining iteration budget. -/
def agentIter (client : ModelFn) (sendCommand : SendFn) (overrides : Value)
    (signal : Nat → Bool) : Nat → LoopState → LoopState × LoopOutcome
  | 0, st => (st, .finished)
  | fuel + 1, st =>
    if signal st.checkIdx then (st, .abortedErr)
    else
      let st1 : LoopState :=
        { st with
            checkIdx := st.checkIdx + 1
            events := st.events ++ [.status "Thinking..."] }
      let resp := client st1.history
      let st2 : LoopState := { st1 with modelCalls := st1.modelCalls + 1 }
      if signal st2.checkIdx then (st2, .abortedErr)
      else
        let st3 : LoopState :=
          { st2 with
              checkIdx := st2.checkIdx + 1
              history := st2.history ++ [assistantMsg resp.content]
              events := st2.events ++ blockEvents resp.content
              finalText := st2.finalText ++ String.join (textsOf resp.content) }
        let toolUseBlocks := resp.content.filter isToolUse
        if toolUseBlocks.isEmpty ∨ resp.stop_reason = "end_turn" then (st3, .finished)
        else
          match execTools sendCommand overrides signal toolUseBlocks st3 [] with
          | (st4, none) => (st4, .abortedErr)
          | (st4, some results) =>
            agentIter client sendCommand overrides signal fuel
              { st4 with history := st4.history ++ [("user", .arr results)] }

/-- The iteration cap (`maxIterations = 20`). -/
def maxIterations : Nat := 20

/-- Result of one `processMessage` call: final loop state and outcome. -/
structure PMResult where
  state : LoopState
  outcome : LoopOutcome
deriving Repr

/-- The initial loop state of a `processMessage` call: the user message
appended to the conversation history, empty logs, checkpoint 0. -/
def pmInitState (userMessage : String) (history0 : List (String × Value)) : LoopState :=
  { history := history0 ++ [userTextMsg userMessage]
    finalText := ""
    checkIdx := 0
    events := []
    relayLog := []
    modelCalls := 0 }

/-- `AIController.processMessage`: append the user message, run the
capped loop, and on an `AbortError` make one best-effort short-timeout
`stop_motors` attempt through the relay (its own failure is swallowed)
before the abort propagates to the caller. -/
def processMessage (client : ModelFn) (sendCommand : SendFn) (overrides : Value)
    (signal : Nat → Bool) (userMessage : String) (history0 : List (String × Value)) :
    PMResult :=
  match agentIter client sendCommand overrides signal maxIterations
      (pmInitState userMessage history0) with
  | (st, .finished) => ⟨st, .finished⟩
  | (st, .abortedErr) =>
    let _ := sendCommand "stop_motors" (.obj []) 5000
    ⟨{ st with relayLog := st.relayLog ++ [⟨"stop_motors", .obj [], 5000⟩] }, .abortedErr⟩

/-- The `/api/chat` handler's streaming behaviour around
`processMessage`: the events emitted during the call followed by
exactly one terminal event (`done` with the final text, or `aborted`
for an `AbortError`). -/
def chatStream (client : ModelFn) (sendCommand : SendFn) (overrides : Value)
    (signal : Nat → Bool) (userMessage : String) (history0 : List (String × Value)) :
    List StreamEvent :=
  let r := processMessage client sendCommand overrides signal userMessage history0
  r.state.events ++
    [match r.outcome with
     | .finished => .done r.state.finalText
     | .abortedErr => .aborted "Interrupted by user"]

/-! ## Relay invariants

The invariant ties together the pending-command table, the active
timers, the settlement log, the transmitted frames and the id counter,
and is preserved by every relay event. -/

/-- Structural invariant of the relay state. -/
structure RelayInv (st : RelayState) : Prop where
  pending_nodup : (pendingIds st).Nodup
  timer_nodup : (timerIds st).Nodup
  timer_iff_pending : ∀ i, i ∈ timerIds st ↔ i ∈ pendingIds st
  settled_nodup : (settledIds st).Nodup
  pending_not_settled : ∀ i ∈ pendingIds st, ¬ i ∈ settledIds st
  pending_lt : ∀ i ∈ pendingIds st, i < st.commandIdCounter
  settled_lt : ∀ i ∈ settledIds st, i < st.commandIdCounter
  sent_lt : ∀ i ∈ sentIds st, i < st.commandIdCounter
  sent_chain : List.Chain' (· > ·) (sentIds st)

/-- The invariant only reads the table, timers, logs and counter, so it
transfers along any state change that keeps those fields. -/
theorem RelayInv.of_core_eq {st st' : RelayState}
    (hp : st'.pendingCommands = st.pendingCommands) (ht : st'.timers = st.timers)
    (hs : st'.settled = st.settled) (hn : st'.sent = st.sent)
    (hc : st'.commandIdCounter = st.commandIdCounter) (h : RelayInv st) : RelayInv st' := by
  have e1 : pendingIds st' = pendingIds st := by simp [pendingIds, hp]
  have e2 : timerIds st' = timerIds st := by simp [timerIds, ht]
  have e3 : settledIds st' = settledIds st := by simp [settledIds, hs]
  have e4 : sentIds st' = sentIds st := by simp [sentIds, hn]
  exact ⟨e1 ▸ h.pending_nodup, e2 ▸ h.timer_nodup,
    by rw [e1, e2]; exact h.timer_iff_pending,
    e3 ▸ h.settled_nodup,
    by rw [e1, e3]; exact h.pending_not_settled,
    by rw [e1, hc]; exact h.pending_lt,
    by rw [e3, hc]; exact h.settled_lt,
    by rw [e4, hc]; exact h.sent_lt,
    e4 ▸ h.sent_chain⟩

/-- Membership in the key image of a filtered list. -/
theorem mem_map_filter_ne {α : Type} (key : α → Nat) (l : List α) (id i : Nat) :
    (i ∈ (l.filter fun x => key x ≠ id).map key) ↔ (i ∈ l.map key ∧ i ≠ id) := by
  simp only [List.mem_map, List.mem_filter, decide_not, Bool.not_eq_eq_eq_not, Bool.not_true,
    decide_eq_false_iff_not]
  constructor
  · rintro ⟨a, ⟨ha, hne⟩, rfl⟩
    exact ⟨⟨a, ha, rfl⟩, hne⟩
  · rintro ⟨⟨a, ha, rfl⟩, hne⟩
    exact ⟨a, ⟨ha, hne⟩, rfl⟩

/-- Filtering preserves distinctness of keys. -/
theorem nodup_map_filter {α : Type} (key : α → Nat) (l : List α) (p : α → Bool)
    (h : (l.map key).Nodup) : ((l.filter p).map key).Nodup :=
  h.sublist ((List.filter_sublist l).map key)

/-- The initial relay state satisfies the invariant. -/
theorem relayInv_init : RelayInv relayInit := by
  constructor <;> simp [relayInit, pendingIds, timerIds, settledIds, sentIds]

/-- Invariant preservation for the shared shape of result arrival and
timer expiry: remove one pending id (from table and timers) and log one
settlement for it. -/
theorem relayInv_removeSettle {st : RelayState} (h : RelayInv st) (id : Nat) (s : Settlement)
    (hid : id ∈ pendingIds st) (st' : RelayState)
    (hp : st'.pendingCommands = st.pendingCommands.filter fun p => p.id ≠ id)
    (ht : st'.timers = st.timers.filter fun t => t.id ≠ id)
    (hs : st'.settled = (id, s) :: st.settled)
    (hn : st'.sent = st.sent) (hc : st'.commandIdCounter = st.commandIdCounter) :
    RelayInv st' := by
  have hidset : ¬ id ∈ settledIds st := h.pending_not_settled id hid
  have ep : pendingIds st' = (st.pendingCommands.filter fun p => p.id ≠ id).map fun p => p.id := by
    simp [pendingIds, hp]
  have et : timerIds st' = (st.timers.filter fun t => t.id ≠ id).map fun t => t.id := by
    simp [timerIds, ht]
  have es : settledIds st' = id :: settledIds st := by simp [settledIds, hs]
  have en : sentIds st' = sentIds st := by simp [sentIds, hn]
  constructor
  · exact ep ▸ nodup_map_filter _ _ _ h.pending_nodup
  · exact et ▸ nodup_map_filter _ _ _ h.timer_nodup
  · intro i
    rw [ep, et, mem_map_filter_ne, mem_map_filter_ne]
    exact and_congr_left (fun _ => h.timer_iff_pending i)
  · rw [es]
    exact List.nodup_cons.2 ⟨hidset, h.settled_nodup⟩
  · intro i hi
    rw [ep, mem_map_filter_ne] at hi
    rw [es]
    intro hmem
    rcases List.mem_cons.1 hmem with rfl | hmem'
    · exact hi.2 rfl
    · exact h.pending_not_settled i hi.1 hmem'
  · intro i hi
    rw [ep, mem_map_filter_ne] at hi
    rw [hc]
    exact h.pending_lt i hi.1
  · intro i hi
    rw [es] at hi
    rw [hc]
    rcases List.mem_cons.1 hi with rfl | hi'
    · exact h.pending_lt i hid
    · exact h.settled_lt i hi'
  · intro i hi
    rw [en] at hi
    rw [hc]
    exact h.sent_lt i hi
  · exact en ▸ h.sent_chain

/-- `handleMessage` preserves the invariant. -/
theorem relayInv_handleMessage {st : RelayState} (h : RelayInv st) (msg : WsMessage) :
    RelayInv (handleMessage st msg) := by
  cases msg with
  | other => exact h
  | commandResult id result =>
    cases hf : st.pendingCommands.find? (fun p => p.id = id) with
    | none => simpa [handleMessage, hf] using h
    | some p =>
      have hpmem : p ∈ st.pendingCommands := List.mem_of_find?_eq_some hf
      have hpid : p.id = id := by simpa using List.find?_some hf
      have hid : id ∈ pendingIds st := hpid ▸ List.mem_map_of_mem (fun q => q.id) hpmem
      exact relayInv_removeSettle h id (Settlement.resolved result) hid _
        (by simp [handleMessage, hf]) (by simp [handleMessage, hf])
        (by simp [handleMessage, hf]) (by simp [handleMessage, hf])
        (by simp [handleMessage, hf])

/-- `fireTimer` preserves the invariant. -/
theorem relayInv_fireTimer {st : RelayState} (h : RelayInv st) (id : Nat) :
    RelayInv (fireTimer st id) := by
  cases hf : st.timers.find? (fun t => t.id = id) with
  | none => simpa [fireTimer, hf] using h
  | some t =>
    have htmem : t ∈ st.timers := List.mem_of_find?_eq_some hf
    have htid : t.id = id := by simpa using List.find?_some hf
    have hid : id ∈ pendingIds st :=
      (h.timer_iff_pending id).1 (htid ▸ List.mem_map_of_mem (fun x => x.id) htmem)
    by_cases hd : t.createdAt + t.timeoutMs ≤ st.now
    · exact relayInv_removeSettle h id (Settlement.rejectedTimeout t.action t.timeoutMs) hid _
        (by simp [fireTimer, hf, hd]) (by simp [fireTimer, hf, hd])
        (by simp [fireTimer, hf, hd]) (by simp [fireTimer, hf, hd])
        (by simp [fireTimer, hf, hd])
    · simpa [fireTimer, hf, hd] using h

/-- After `handleClose`, no timer survives: every active timer's id is
in the pending table, and the close handler clears a timer for every
pending entry. -/
theorem handleClose_timers {st : RelayState} (h : RelayInv st) (sid : Nat) :
    (handleClose st sid).timers = [] := by
  have core : (if st.simulationSocket = some sid then
      { st with simulationSocket := none } else st).pendingCommands = st.pendingCommands ∧
      (if st.simulationSocket = some sid then
      { st with simulationSocket := none } else st).timers = st.timers := by
    split <;> exact ⟨rfl, rfl⟩
  show List.filter _ _ = []
  rw [List.filter_eq_nil_iff]
  intro t ht
  rw [core.2] at ht
  have : t.id ∈ pendingIds st :=
    (h.timer_iff_pending t.id).1 (List.mem_map_of_mem (fun x => x.id) ht)
  simp only [core.1]
  simpa [pendingIds] using this

/-- `handleClose` preserves the invariant. -/
theorem relayInv_handleClose {st : RelayState} (h : RelayInv st) (sid : Nat) :
    RelayInv (handleClose st sid) := by
  have hd : ∀ i ∈ pendingIds st, ¬ i ∈ settledIds st := h.pending_not_settled
  have ep : pendingIds (handleClose st sid) = [] := by
    simp [handleClose, pendingIds]
  have et : timerIds (handleClose st sid) = [] := by
    rw [timerIds, handleClose_timers h sid]
    rfl
  have es : settledIds (handleClose st sid) = pendingIds st ++ settledIds st := by
    unfold handleClose settledIds pendingIds
    split <;> simp [Function.comp]
  have en : sentIds (handleClose st sid) = sentIds st := by
    unfold handleClose sentIds
    split <;> rfl
  have ec : (handleClose st sid).commandIdCounter = st.commandIdCounter := by
    unfold handleClose
    split <;> rfl
  constructor
  · rw [ep]; exact List.nodup_nil
  · rw [et]; exact List.nodup_nil
  · intro i
    rw [ep, et]
  · rw [es]
    exact h.pending_nodup.append h.settled_nodup
      (List.disjoint_right.2 fun {a} hs hp => hd a hp hs)
  · intro i hi
    rw [ep] at hi
    exact absurd hi (List.not_mem_nil i)
  · intro i hi
    rw [ep] at hi
    exact absurd hi (List.not_mem_nil i)
  · intro i hi
    rw [es] at hi
    rw [ec]
    rcases List.mem_append.1 hi with hi' | hi'
    · exact h.pending_lt i hi'
    · exact h.settled_lt i hi'
  · intro i hi
    rw [en] at hi
    rw [ec]
    exact h.sent_lt i hi
  · exact en ▸ h.sent_chain

/-- `sendCommandToSim` preserves the invariant. -/
theorem relayInv_send {st : RelayState} (h : RelayInv st) (action : String) (params : Value)
    (timeout : Nat) : RelayInv (sendCommandToSim st action params timeout).1 := by
  cases hs : st.simulationSocket with
  | none => simpa [sendCommandToSim, hs] using h
  | some sid =>
    by_cases hr : readyStateOf st sid ≠ ReadyState.OPEN
    · simpa [sendCommandToSim, hs, hr] using h
    · have hstep : (sendCommandToSim st action params timeout).1 =
        { st with
            commandIdCounter := st.commandIdCounter + 1
            timers := ⟨st.commandIdCounter, st.now, timeout, action⟩ :: st.timers
            pendingCommands := ⟨st.commandIdCounter, action, timeout⟩ :: st.pendingCommands
            sent := ⟨st.commandIdCounter, action, params⟩ :: st.sent } := by
        simp [sendCommandToSim, hs, hr]
      rw [hstep]
      have ep : pendingIds { st with
            commandIdCounter := st.commandIdCounter + 1
            timers := ⟨st.commandIdCounter, st.now, timeout, action⟩ :: st.timers
            pendingCommands := ⟨st.commandIdCounter, action, timeout⟩ :: st.pendingCommands
            sent := ⟨st.commandIdCounter, action, params⟩ :: st.sent } =
          st.commandIdCounter :: pendingIds st := by simp [pendingIds]
      have et : timerIds { st with
            commandIdCounter := st.commandIdCounter + 1
            timers := ⟨st.commandIdCounter, st.now, timeout, action⟩ :: st.timers
            pendingCommands := ⟨st.commandIdCounter, action, timeout⟩ :: st.pendingCommands
            sent := ⟨st.commandIdCounter, action, params⟩ :: st.sent } =
          st.commandIdCounter :: timerIds st := by simp [timerIds]
      have en : sentIds { st with
            commandIdCounter := st.commandIdCounter + 1
            timers := ⟨st.commandIdCounter, st.now, timeout, action⟩ :: st.timers
            pendingCommands := ⟨st.commandIdCounter, action, timeout⟩ :: st.pendingCommands
            sent := ⟨st.commandIdCounter, action, params⟩ :: st.sent } =
          st.commandIdCounter :: sentIds st := by simp [sentIds]
      constructor
      · rw [ep]
        exact List.nodup_cons.2 ⟨fun hmem => lt_irrefl _ (h.pending_lt _ hmem), h.pending_nodup⟩
      · rw [et]
        refine List.nodup_cons.2 ⟨fun hmem => ?_, h.timer_nodup⟩
        exact lt_irrefl _ (h.pending_lt _ ((h.timer_iff_pending _).1 hmem))
      · intro i
        rw [ep, et]
        simp only [List.mem_cons]
        exact or_congr_right (h.timer_iff_pending i)
      · exact h.settled_nodup
      · intro i hi hs'
        rw [ep] at hi
        rcases List.mem_cons.1 hi with rfl | hi'
        · exact lt_irrefl _ (h.settled_lt _ hs')
        · exact h.pending_not_settled i hi' hs'
      · intro i hi
        rw [ep] at hi
        rcases List.mem_cons.1 hi with rfl | hi'
        · exact Nat.lt_succ_self _
        · exact Nat.lt_succ_of_lt (h.pending_lt i hi')
      · intro i hi
        exact Nat.lt_succ_of_lt (h.settled_lt i hi)
      · intro i hi
        rw [en] at hi
        rcases List.mem_cons.1 hi with rfl | hi'
        · exact Nat.lt_succ_self _
        · exact Nat.lt_succ_of_lt (h.sent_lt i hi')
      · rw [en]
        rw [List.chain'_cons']
        refine ⟨fun y hy => ?_, h.sent_chain⟩
        exact h.sent_lt y (List.mem_of_mem_head? hy)

/-- Every relay event preserves the invariant. -/
theorem relayInv_step {st : RelayState} (h : RelayInv st) (e : RelayEvent) :
    RelayInv (relayStep st e) := by
  cases e with
  | connect sid =>
    by_cases hc : sid ∈ st.handlers
    · simpa [relayStep, hc] using h
    · refine RelayInv.of_core_eq ?_ ?_ ?_ ?_ ?_ h <;> simp [relayStep, hc, handleConnection]
  | message msg =>
    have : relayStep st (.message msg) = handleMessage st msg := rfl
    rw [this]
    exact relayInv_handleMessage h msg
  | wsClose sid =>
    by_cases hc : sid ∈ st.handlers ∧ ¬ sid ∈ st.closedHandled
    · have hstep : relayStep st (.wsClose sid) =
        handleClose
          { st with
              closedHandled := sid :: st.closedHandled
              socketReady := (sid, ReadyState.CLOSED) :: st.socketReady } sid := by
        simp [relayStep, hc]
      rw [hstep]
      refine relayInv_handleClose ?_ sid
      refine RelayInv.of_core_eq ?_ ?_ ?_ ?_ ?_ h
      all_goals rfl
    · simpa [relayStep, hc] using h
  | send action params timeout =>
    have : relayStep st (.send action params timeout) = (sendCommandToSim st action params timeout).1 := rfl
    rw [this]
    exact relayInv_send h action params timeout
  | timerFire id =>
    have : relayStep st (.timerFire id) = fireTimer st id := rfl
    rw [this]
    exact relayInv_fireTimer h id
  | tick dt =>
    refine RelayInv.of_core_eq ?_ ?_ ?_ ?_ ?_ h
    all_goals rfl
  | setReady sid rs =>
    by_cases hc : sid ∈ st.handlers
    · refine RelayInv.of_core_eq ?_ ?_ ?_ ?_ ?_ h <;> simp [relayStep, hc]
    · simpa [relayStep, hc] using h

/-- Every reachable relay state satisfies the invariant. -/
theorem relayInv_reachable {st : RelayState} (h : RelayReachable st) : RelayInv st := by
  obtain ⟨tr, rfl⟩ := h
  suffices hgen : ∀ (tr : List RelayEvent) (s : RelayState), RelayInv s → RelayInv (relayRun s tr) from
    hgen tr relayInit relayInv_init
  intro tr
  induction tr with
  | nil => exact fun s hs => hs
  | cons e rest ih =>
    intro s hs
    exact ih (relayStep s e) (relayInv_step hs e)

/-! ## Claim theorems: TransportRelay -/

/-- Counting settlements of a given id equals counting that id among
the settled ids. -/
theorem countP_fst_eq_count (l : List (Nat × Settlement)) (id : Nat) :
    (l.countP fun s => s.1 = id) = (l.map Prod.fst).count id := by
  rw [List.count_eq_countP, List.countP_map]
  congr 1

/-- The close handler leaves the two state components it consults
unchanged before rejecting: table and log are those of the input. -/
theorem handleClose_settled (st : RelayState) (sid : Nat) :
    (handleClose st sid).settled =
      (st.pendingCommands.map fun p => (p.id, Settlement.rejectedDisconnected)) ++ st.settled := by
  unfold handleClose
  split <;> rfl

/-- C2: when the registered connection closes with K pending commands
outstanding, every one of the K waiters is rejected (disconnected)
exactly once, every timer is cancelled, and the pending-command table
is empty afterwards. -/
theorem close_rejects_all_pending (st : RelayState) (hr : RelayReachable st) (sid : Nat)
    (hreg : st.simulationSocket = some sid) (hh : sid ∈ st.handlers)
    (hnc : ¬ sid ∈ st.closedHandled) :
    (relayStep st (.wsClose sid)).pendingCommands = [] ∧
    (relayStep st (.wsClose sid)).timers = [] ∧
    ∀ p ∈ st.pendingCommands,
      (p.id, Settlement.rejectedDisconnected) ∈ (relayStep st (.wsClose sid)).settled ∧
      ((relayStep st (.wsClose sid)).settled.countP fun s => s.1 = p.id) = 1 := by
  have h := relayInv_reachable hr
  have hguard : sid ∈ st.handlers ∧ ¬ sid ∈ st.closedHandled := ⟨hh, hnc⟩
  have hstep : relayStep st (.wsClose sid) =
      handleClose
        { st with
            closedHandled := sid :: st.closedHandled
            socketReady := (sid, ReadyState.CLOSED) :: st.socketReady } sid := by
    simp [relayStep, hguard]
  have h2 : RelayInv { st with
      closedHandled := sid :: st.closedHandled
      socketReady := (sid, ReadyState.CLOSED) :: st.socketReady } := by
    refine RelayInv.of_core_eq ?_ ?_ ?_ ?_ ?_ h
    all_goals rfl
  refine ⟨by rw [hstep]; rfl, by rw [hstep]; exact handleClose_timers h2 sid, ?_⟩
  intro p hp
  have hset : (relayStep st (.wsClose sid)).settled =
      (st.pendingCommands.map fun q => (q.id, Settlement.rejectedDisconnected)) ++ st.settled := by
    rw [hstep, handleClose_settled]
  have hpid : p.id ∈ pendingIds st := List.mem_map_of_mem (fun q => q.id) hp
  constructor
  · rw [hset]
    exact List.mem_append_left _ (List.mem_map_of_mem _ hp)
  · rw [hset, List.countP_append]
    have hz : (st.settled.countP fun s => s.1 = p.id) = 0 := by
      rw [List.countP_eq_zero]
      intro a ha
      have : a.1 ∈ settledIds st := List.mem_map_of_mem Prod.fst ha
      intro hap
      have hap' : a.1 = p.id := by simpa using hap
      exact h.pending_not_settled p.id hpid (hap' ▸ this)
    have ho : ((st.pendingCommands.map fun q => (q.id, Settlement.rejectedDisconnected)).countP
        fun s => s.1 = p.id) = 1 := by
      rw [List.countP_map]
      have : ((fun s : Nat × Settlement => decide (s.1 = p.id)) ∘
          fun q : PendingEntry => (q.id, Settlement.rejectedDisconnected)) =
          fun q : PendingEntry => decide (q.id = p.id) := by
        funext q
        rfl
      rw [this]
      have hc : (st.pendingCommands.countP fun q => decide (q.id = p.id)) =
          (pendingIds st).count p.id := by
        rw [List.count_eq_countP, pendingIds, List.countP_map]
        congr 1
      rw [hc]
      exact List.count_eq_one_of_mem h.pending_nodup hpid
    rw [hz, ho]

/-- Connect a socket, send two commands: two pending waiters. -/
def trC2 : List RelayEvent :=
  [.connect 1, .send "move_base" (.obj []) 30000, .send "move_arm" (.obj []) 30000]

/-- Witness for C2 at a concrete trace with two pending commands. -/
theorem close_rejects_all_pending_witness :
    (relayStep (relayRun relayInit trC2) (.wsClose 1)).pendingCommands = [] ∧
    (relayStep (relayRun relayInit trC2) (.wsClose 1)).timers = [] ∧
    (0, Settlement.rejectedDisconnected) ∈ (relayStep (relayRun relayInit trC2) (.wsClose 1)).settled ∧
    (1, Settlement.rejectedDisconnected) ∈ (relayStep (relayRun relayInit trC2) (.wsClose 1)).settled ∧
    ((relayStep (relayRun relayInit trC2) (.wsClose 1)).settled.countP fun s => s.1 = 0) = 1 := by
  have h := close_rejects_all_pending (relayRun relayInit trC2) ⟨trC2, rfl⟩ 1
    (by decide) (by decide) (by decide)
  have hp0 := h.2.2 ⟨0, "move_base", 30000⟩ (by decide)
  have hp1 := h.2.2 ⟨1, "move_arm", 30000⟩ (by decide)
  exact ⟨h.1, h.2.1, hp0.1, hp1.1, hp0.2⟩

/-- Connect socket 1, replace it by socket 2, send one command. -/
def trC1pre : List RelayEvent :=
  [.connect 1, .connect 2, .send "observe_scene" (.obj []) 30000]

/-- Then the replaced socket 1 closes. -/
def trC1 : List RelayEvent := trC1pre ++ [.wsClose 1]

/-- C1 counterexample: with socket 2 registered (socket 1 replaced) and
one command pending, the close of the no-longer-registered socket 1
nevertheless rejects the pending waiter and clears the table — the
claim that such a close settles nothing is false on the code, because
the close handler's registered-socket check only guards nulling the
stored handle, not the rejection loop. -/
theorem replaced_close_settles_counterexample :
    (relayRun relayInit trC1pre).simulationSocket = some 2 ∧
    (relayRun relayInit trC1pre).settled = [] ∧
    pendingIds (relayRun relayInit trC1pre) = [0] ∧
    (relayRun relayInit trC1).simulationSocket = some 2 ∧
    (relayRun relayInit trC1).settled = [(0, Settlement.rejectedDisconnected)] ∧
    (relayRun relayInit trC1).pendingCommands = [] :=
  ⟨rfl, rfl, rfl, rfl, rfl, rfl⟩

/-- C1 amended: replacing the active connection does not itself settle
any pending waiter; pending waiters are rejected and the table cleared
by the close of ANY connection that was ever registered — whether or
not it is the currently registered one — and the registered-connection
identity check on close governs only whether the stored handle is
cleared. -/
theorem connection_replacement_close_amended (st : RelayState) (sid : Nat) :
    ((relayStep st (.connect sid)).pendingCommands = st.pendingCommands ∧
     (relayStep st (.connect sid)).settled = st.settled ∧
     (relayStep st (.connect sid)).timers = st.timers) ∧
    (sid ∈ st.handlers → ¬ sid ∈ st.closedHandled →
      (relayStep st (.wsClose sid)).pendingCommands = [] ∧
      (∀ p ∈ st.pendingCommands,
        (p.id, Settlement.rejectedDisconnected) ∈ (relayStep st (.wsClose sid)).settled) ∧
      (relayStep st (.wsClose sid)).simulationSocket =
        (if st.simulationSocket = some sid then none else st.simulationSocket)) := by
  constructor
  · by_cases hc : sid ∈ st.handlers
    · refine ⟨?_, ?_, ?_⟩ <;> simp [relayStep, hc]
    · refine ⟨?_, ?_, ?_⟩ <;> simp [relayStep, hc, handleConnection]
  · intro hh hnc
    have hguard : sid ∈ st.handlers ∧ ¬ sid ∈ st.closedHandled := ⟨hh, hnc⟩
    have hstep : relayStep st (.wsClose sid) =
        handleClose
          { st with
              closedHandled := sid :: st.closedHandled
              socketReady := (sid, ReadyState.CLOSED) :: st.socketReady } sid := by
      simp [relayStep, hguard]
    refine ⟨by rw [hstep]; rfl, ?_, ?_⟩
    · intro p hp
      rw [hstep, handleClose_settled]
      exact List.mem_append_left _ (List.mem_map_of_mem _ hp)
    · rw [hstep]
      unfold handleClose
      split <;> simp_all

/-- Witness for the amended C1 at the concrete replaced-close trace. -/
theorem connection_replacement_close_amended_witness :
    (relayStep (relayRun relayInit trC1pre) (.connect 7)).pendingCommands =
      (relayRun relayInit trC1pre).pendingCommands ∧
    (relayStep (relayRun relayInit trC1pre) (.wsClose 1)).pendingCommands = [] ∧
    (0, Settlement.rejectedDisconnected) ∈
      (relayStep (relayRun relayInit trC1pre) (.wsClose 1)).settled ∧
    (relayStep (relayRun relayInit trC1pre) (.wsClose 1)).simulationSocket =
      (if (relayRun relayInit trC1pre).simulationSocket = some 1 then none
       else (relayRun relayInit trC1pre).simulationSocket) := by
  have h1 := (connection_replacement_close_amended (relayRun relayInit trC1pre) 7).1
  have h2 := (connection_replacement_close_amended (relayRun relayInit trC1pre) 1).2
    (by decide) (by decide)
  exact ⟨h1.1, h2.1, h2.2.1 ⟨0, "observe_scene", 30000⟩ (by decide), h2.2.2⟩

/-- Finding an element by its key when keys are distinct. -/
theorem find?_eq_self_of_nodup_keys {α : Type} (key : α → Nat) (l : List α)
    (h : (l.map key).Nodup) (a : α) (ha : a ∈ l) :
    l.find? (fun x => key x = key a) = some a := by
  induction l with
  | nil => cases ha
  | cons b bs ih =>
    rw [List.map_cons, List.nodup_cons] at h
    rcases List.mem_cons.1 ha with rfl | ha'
    · simp [List.find?]
    · have hb : key b ≠ key a := by
        intro he
        exact h.1 (he ▸ List.mem_map_of_mem key ha')
     
      rw [List.find?, decide_eq_false hb]
      exact ih h.2 ha'

/-- C3: a pending command whose result never arrives settles with the
timeout error naming its action and timeout, exactly once, and only
after its own timeout has elapsed: its timer is inert before the
deadline, firing at or after the deadline logs the timeout rejection
once and removes the command, a `command_result` for an id that is not
pending (already settled or never issued) changes nothing, and no id is
ever settled twice. -/
theorem timeout_settles_exactly_once (st : RelayState) (hr : RelayReachable st) :
    (∀ t ∈ st.timers, st.now < t.createdAt + t.timeoutMs →
      relayStep st (.timerFire t.id) = st) ∧
    (∀ t ∈ st.timers, t.createdAt + t.timeoutMs ≤ st.now →
      (t.id, Settlement.rejectedTimeout t.action t.timeoutMs) ∈
        (relayStep st (.timerFire t.id)).settled ∧
      ((relayStep st (.timerFire t.id)).settled.countP fun s => s.1 = t.id) = 1 ∧
      ¬ t.id ∈ pendingIds (relayStep st (.timerFire t.id))) ∧
    (∀ id r, ¬ id ∈ pendingIds st → relayStep st (.message (.commandResult id r)) = st) ∧
    (∀ id, (st.settled.countP fun s => s.1 = id) ≤ 1) := by
  have h := relayInv_reachable hr
  have htn : (st.timers.map fun x => x.id).Nodup := h.timer_nodup
  refine ⟨?_, ?_, ?_, ?_⟩
  · intro t ht hlt
    have hfind : st.timers.find? (fun x => x.id = t.id) = some t :=
      find?_eq_self_of_nodup_keys (fun x => x.id) st.timers htn t ht
    show fireTimer st t.id = st
    rw [fireTimer, hfind]
    simp [Nat.not_le.2 hlt]
  · intro t ht hle
    have hfind : st.timers.find? (fun x => x.id = t.id) = some t :=
      find?_eq_self_of_nodup_keys (fun x => x.id) st.timers htn t ht
    have hid : t.id ∈ pendingIds st :=
      (h.timer_iff_pending t.id).1 (List.mem_map_of_mem (fun x => x.id) ht)
    have hstep : relayStep st (.timerFire t.id) =
        { st with
            timers := st.timers.filter fun x => x.id ≠ t.id
            pendingCommands := st.pendingCommands.filter fun p => p.id ≠ t.id
            settled := (t.id, Settlement.rejectedTimeout t.action t.timeoutMs) :: st.settled } := by
      show fireTimer st t.id = _
      rw [fireTimer, hfind]
      simp [hle]
    rw [hstep]
    refine ⟨List.mem_cons_self _ _, ?_, ?_⟩
    · show ((((t.id, Settlement.rejectedTimeout t.action t.timeoutMs)) :: st.settled).countP
        fun s => s.1 = t.id) = 1
      rw [List.countP_cons]
      have hz : (st.settled.countP fun s => s.1 = t.id) = 0 := by
        rw [List.countP_eq_zero]
        intro a ha hap
        have hap' : a.1 = t.id := by simpa using hap
        exact h.pending_not_settled t.id hid (hap' ▸ List.mem_map_of_mem Prod.fst ha)
      simp [hz]
    · intro hmem
      have hmem' : t.id ∈ (st.pendingCommands.filter fun p => p.id ≠ t.id).map
          (fun p => p.id) := hmem
      exact ((mem_map_filter_ne (fun p => p.id) st.pendingCommands t.id t.id).1 hmem').2 rfl
  · intro id r hid
    have hnone : st.pendingCommands.find? (fun p => p.id = id) = none := by
      rw [List.find?_eq_none]
      intro p hp hpid
      have : p.id = id := by simpa using hpid
      exact hid (this ▸ List.mem_map_of_mem (fun q => q.id) hp)
    show handleMessage st (.commandResult id r) = st
    rw [handleMessage, hnone]
  · intro id
    rw [countP_fst_eq_count]
    exact List.nodup_iff_count_le_one.1 h.settled_nodup id

/-- Connect and send one command: one live timer with deadline 30000. -/
def trC3 : List RelayEvent := [.connect 1, .send "move_head" (.obj []) 30000]

/-- The same trace after the clock reaches the deadline. -/
def trC3late : List RelayEvent := trC3 ++ [.tick 30000]

/-- Witness for C3: before the deadline the timer is inert; at the
deadline it logs the timeout rejection once; an unknown result id is a
no-op. -/
theorem timeout_settles_exactly_once_witness :
    relayStep (relayRun relayInit trC3) (.timerFire 0) = relayRun relayInit trC3 ∧
    (0, Settlement.rejectedTimeout "move_head" 30000) ∈
      (relayStep (relayRun relayInit trC3late) (.timerFire 0)).settled ∧
    ((relayStep (relayRun relayInit trC3late) (.timerFire 0)).settled.countP
      fun s => s.1 = 0) = 1 ∧
    relayStep (relayRun relayInit trC3) (.message (.commandResult 99 Value.null)) =
      relayRun relayInit trC3 := by
  have h1 := (timeout_settles_exactly_once (relayRun relayInit trC3) ⟨trC3, rfl⟩).1
    ⟨0, 0, 30000, "move_head"⟩ (by decide) (by decide)
  have h2 := (timeout_settles_exactly_once (relayRun relayInit trC3late) ⟨trC3late, rfl⟩).2.1
    ⟨0, 0, 30000, "move_head"⟩ (by decide) (by decide)
  have h3 := (timeout_settles_exactly_once (relayRun relayInit trC3) ⟨trC3, rfl⟩).2.2.1
    99 Value.null (by decide)
  exact ⟨h1, h2.1, h2.2.1, h3⟩

/-- C9: correlation ids transmitted across any sequence of sends in one
process lifetime are strictly increasing in allocation order (the sent
log is newest-first, so its reverse is chronological) and never reused,
whatever connection replacements, timeouts or disconnects the trace
contains; and any id a further successful send allocates is strictly
above every id allocated so far. -/
theorem correlation_ids_strictly_increasing (st : RelayState) (hr : RelayReachable st) :
    List.Chain' (· < ·) (sentIds st).reverse ∧ (sentIds st).Nodup ∧
    ∀ (action : String) (params : Value) (timeout : Nat) (id : Nat),
      (sendCommandToSim st action params timeout).2 = .sent id →
      ¬ id ∈ sentIds st ∧ ∀ j ∈ sentIds st, j < id := by
  have h := relayInv_reachable hr
  have hpair : (sentIds st).Pairwise (· > ·) :=
    List.chain'_iff_pairwise.1 h.sent_chain
  refine ⟨?_, ?_, ?_⟩
  · rw [List.chain'_reverse]
    exact h.sent_chain
  · exact hpair.imp ne_of_gt
  · intro action params timeout id hsend
    have hid : id = st.commandIdCounter := by
      cases hs : st.simulationSocket with
      | none => simp [sendCommandToSim, hs] at hsend
      | some sid =>
        by_cases hrd : readyStateOf st sid ≠ ReadyState.OPEN
        · simp [sendCommandToSim, hs, hrd] at hsend
        · simp only [sendCommandToSim, hs, if_neg hrd] at hsend
          exact (SendOutcome.sent.inj hsend).symm
    subst hid
    exact ⟨fun hmem => lt_irrefl _ (h.sent_lt _ hmem), h.sent_lt⟩

/-- Three sends interleaved with a disconnect and a replacement. -/
def trC9 : List RelayEvent :=
  [.connect 1, .send "move_base" Value.null 30000, .send "move_arm" Value.null 30000,
   .wsClose 1, .connect 2, .send "navigate_to" Value.null 60000]

/-- Witness for C9: ids 0,1,2 were allocated in order across a
disconnect and a connection replacement, and the next id is fresh. -/
theorem correlation_ids_strictly_increasing_witness :
    List.Chain' (· < ·) (sentIds (relayRun relayInit trC9)).reverse ∧
    (sentIds (relayRun relayInit trC9)).Nodup ∧
    ¬ 3 ∈ sentIds (relayRun relayInit trC9) := by
  have h := correlation_ids_strictly_increasing (relayRun relayInit trC9) ⟨trC9, rfl⟩
  exact ⟨h.1, h.2.1, (h.2.2 "reset_robot" Value.null 30000 3 (by decide)).1⟩

/-- C10: `sendCommandToSim` rejects immediately with the not-connected
error both when no connection handle is stored and when the stored
handle's readyState is not OPEN, and in either case the relay state is
returned unchanged: no correlation id is allocated, no timer started,
nothing added to the pending table. -/
theorem sendCommand_not_open_rejects (st : RelayState) (action : String) (params : Value)
    (timeout : Nat)
    (h : st.simulationSocket = none ∨
      ∃ sid, st.simulationSocket = some sid ∧ readyStateOf st sid ≠ ReadyState.OPEN) :
    sendCommandToSim st action params timeout = (st, .rejectedNotConnected notConnectedMsg) := by
  rcases h with hn | ⟨sid, hs, hrd⟩
  · simp [sendCommandToSim, hn]
  · simp [sendCommandToSim, hs, hrd]

/-- A connected socket that has moved to CLOSING. -/
def trC10 : List RelayEvent := [.connect 1, .setReady 1 .CLOSING]

/-- Witness for C10: a stored but CLOSING socket makes send reject with
the relay state unchanged. -/
theorem sendCommand_not_open_rejects_witness :
    sendCommandToSim (relayRun relayInit trC10) "move_base" (.obj []) 30000 =
      (relayRun relayInit trC10, .rejectedNotConnected notConnectedMsg) :=
  sendCommand_not_open_rejects (relayRun relayInit trC10) "move_base" (.obj []) 30000
    (Or.inr ⟨1, rfl, by decide⟩)

/-! ## Claim theorems: ToolDispatcher -/

/-- The try/catch wrapper does not change which relay calls were made. -/
theorem executeTool_calls (n : String) (i : Value) (sc : SendFn) (ov : Value) :
    (executeTool n i sc ov).2 = (executeToolBody n i sc ov).2 := by
  unfold executeTool
  rcases executeToolBody n i sc ov with ⟨r, calls⟩
  cases r <;> rfl

/-- C6: dispatching `observe_scene` resolves each sources field with
precedence explicit input value, then session default, then `true`:
when the input carries no explicit `sources.head_camera`, a session
default of `false` makes the (single) relay call carry
`params.sources.head_camera = false`, and with no session default
either it carries `true`. -/
theorem observe_scene_source_precedence (sendCommand : SendFn) (toolInput ov : Value)
    (hne : nullish (optChain (getField toolInput "sources") "head_camera") = true) :
    (getField ov "head_camera" = .bool false →
      ((executeTool "observe_scene" toolInput sendCommand ov).2.map fun c =>
        (c.action, getField (getField c.params "sources") "head_camera", c.timeoutMs)) =
      [("observe_scene", Value.bool false, 30000)]) ∧
    (nullish (getField ov "head_camera") = true →
      ((executeTool "observe_scene" toolInput sendCommand ov).2.map fun c =>
        (c.action, getField (getField c.params "sources") "head_camera", c.timeoutMs)) =
      [("observe_scene", Value.bool true, 30000)]) := by
  have hred : ((executeTool "observe_scene" toolInput sendCommand ov).2.map fun c =>
      (c.action, getField (getField c.params "sources") "head_camera", c.timeoutMs)) =
      [("observe_scene",
        coalesce (coalesce (optChain (getField toolInput "sources") "head_camera")
          (getField ov "head_camera")) (.bool true), 30000)] := by
    rw [executeTool_calls]
    rfl
  have h1 : coalesce (optChain (getField toolInput "sources") "head_camera")
      (getField ov "head_camera") = getField ov "head_camera" := by
    unfold coalesce
    rw [hne]
    simp
  rw [hred, h1]
  constructor
  · intro hov
    rw [hov]
    rfl
  · intro hov
    unfold coalesce
    rw [hov]
    simp

/-- Witness for C6 at concrete inputs: empty tool input with a session
default of false, and with no session override at all. -/
theorem observe_scene_source_precedence_witness :
    ((executeTool "observe_scene" (.obj []) (fun _ _ _ => .ok (.obj []))
        (.obj [("head_camera", .bool false)])).2.map fun c =>
      (c.action, getField (getField c.params "sources") "head_camera", c.timeoutMs)) =
      [("observe_scene", Value.bool false, 30000)] ∧
    ((executeTool "observe_scene" (.obj []) (fun _ _ _ => .ok (.obj []))
        (.obj [])).2.map fun c =>
      (c.action, getField (getField c.params "sources") "head_camera", c.timeoutMs)) =
      [("observe_scene", Value.bool true, 30000)] := by
  have h1 := (observe_scene_source_precedence (fun _ _ _ => .ok (.obj [])) (.obj [])
    (.obj [("head_camera", .bool false)]) rfl).1 rfl
  have h2 := (observe_scene_source_precedence (fun _ _ _ => .ok (.obj []))
    (.obj []) (.obj []) rfl).2 rfl
  exact ⟨h1, h2⟩

/-- C8: dispatch never throws for catalog- or relay-level failures: an
unregistered tool name returns the unknown-tool error object without
making any relay call, and any rejection raised by the relay send
function is caught and reduced to an error-message result. -/
theorem dispatch_reduces_failures (toolName : String) (toolInput ov : Value) (e : JsError) :
    (¬ toolName ∈ knownToolNames → ∀ sc : SendFn,
      executeTool toolName toolInput sc ov =
        (.obj [("error", .str ("Unknown tool: " ++ toolName))], [])) ∧
    (toolName ∈ knownToolNames →
      (executeTool toolName toolInput (fun _ _ _ => .error e) ov).1 =
        .obj [("error", .str (errMessage e))]) := by
  constructor
  · intro hn sc
    have hbody : executeToolBody toolName toolInput sc ov =
        (.ok (.obj [("error", .str ("Unknown tool: " ++ toolName))]), []) := by
      unfold executeToolBody
      split
      all_goals first
        | rfl
        | (exfalso; apply hn; decide)
    unfold executeTool
    rw [hbody]
  · intro hm
    have hm' : toolName = "observe_scene" ∨ toolName = "move_base" ∨ toolName = "move_arm" ∨
        toolName = "set_gripper" ∨ toolName = "move_head" ∨ toolName = "get_robot_state" ∨
        toolName = "get_scene_objects" ∨ toolName = "navigate_to" ∨
        toolName = "reset_robot" := by
      simpa [knownToolNames] using hm
    rcases hm' with rfl | rfl | rfl | rfl | rfl | rfl | rfl | rfl | rfl <;> rfl

/-- Witness for C8: an unregistered name, and a known tool whose relay
call rejects. -/
theorem dispatch_reduces_failures_witness :
    executeTool "fly_to_moon" (.obj []) (fun _ _ _ => .ok (.obj [])) (.obj []) =
      (.obj [("error", .str "Unknown tool: fly_to_moon")], []) ∧
    (executeTool "move_base" (.obj []) (fun _ _ _ => .error ⟨"boom", "Error: boom"⟩)
        (.obj [])).1 =
      .obj [("error", .str "boom")] := by
  have h1 := (dispatch_reduces_failures "fly_to_moon" (.obj []) (.obj [])
    ⟨"boom", "Error: boom"⟩).1 (by decide) (fun _ _ _ => .ok (.obj []))
  have h2 := (dispatch_reduces_failures "move_base" (.obj []) (.obj [])
    ⟨"boom", "Error: boom"⟩).2 (by decide)
  exact ⟨h1, h2⟩

/-! ## Claim theorems: tool-result mapping -/

/-- C4 counterexample: the claim's field-presence wording fails for
falsy-valued fields.  A result carrying an `error` field whose value is
falsy (the empty string) is NOT mapped to a single Text block with the
error message; the builder falls through and serializes the error field
into the trailing JSON block instead.  And a result carrying a
recognized camera-image field with a falsy value yields neither an
Image block nor a serialized field: the key is deleted unconditionally
before serialization, so only the default success block remains. -/
theorem toolresult_falsy_fields_counterexample :
    getField (Value.obj [("error", .str "")]) "error" = Value.str "" ∧
    buildToolResultContent "observe_scene" (.obj [("error", .str "")]) =
      [ContentBlock.text "\x7b\n  \"error\": \"\"\n\x7d"] ∧
    buildToolResultContent "observe_scene" (.obj [("error", .str "")]) ≠
      [ContentBlock.text "Error: "] ∧
    buildToolResultContent "observe_scene" (.obj [("error", .str "")]) ≠
      [ContentBlock.text ""] ∧
    getField (Value.obj [("head_camera_image", .str "")]) "head_camera_image" =
      Value.str "" ∧
    buildToolResultContent "observe_scene" (.obj [("head_camera_image", .str "")]) =
      [ContentBlock.text "Command executed successfully."] := by
  refine ⟨rfl, rfl, ?_, ?_, rfl, rfl⟩ <;> decide

/-- C4 amended: the builder agrees everywhere with the spec's mapping
rule once "carries an `error` field" (and likewise the image fields)
is read as "carries the field with a truthy value", and the
camera-image fields are always excluded from the trailing block: a
truthy error yields the single error Text block (a falsy error field
is serialized with the remaining fields instead); otherwise each
truthy camera-image field yields an Image block followed by its
caption Text block, the remaining fields — the two camera-image
fields excluded whatever their value — are serialized into one
trailing Text block, and a default success block is synthesized when
nothing was produced, so the resulting ToolResult is never empty.
Stated for non-nullish results: on `null`/`undefined` the JavaScript
property accesses would throw before any ToolResult is built. -/
theorem toolresult_mapping_amended (toolName : String) (result : Value)
    (hres : nullish result = false) :
    buildToolResultContent toolName result = specToolResultContent result ∧
    buildToolResultContent toolName result ≠ [] := by
  constructor
  · unfold buildToolResultContent specToolResultContent
    by_cases he : truthy (getField result "error")
    · simp [he]
    · by_cases hh : truthy (getField result "head_camera_image") <;>
        by_cases ho : truthy (getField result "orbit_camera_image") <;>
        by_cases hd : 0 < (dataFields result).length <;>
        (have hd2 := hd; simp only [List.length_pos, not_not] at hd2;
          simp [he, hh, ho, hd, hd2])
  · unfold buildToolResultContent
    by_cases he : truthy (getField result "error")
    · simp [he]
    · by_cases hh : truthy (getField result "head_camera_image") <;>
        by_cases ho : truthy (getField result "orbit_camera_image") <;>
        by_cases hd : 0 < (dataFields result).length <;>
        (have hd2 := hd; simp only [List.length_pos, not_not] at hd2;
          simp [he, hh, ho, hd, hd2])

/-- Witness for the amended C4 at a concrete camera result. -/
theorem toolresult_mapping_amended_witness :
    buildToolResultContent "observe_scene"
        (.obj [("head_camera_image", .str "IMG"), ("ok", .bool true)]) =
      specToolResultContent
        (.obj [("head_camera_image", .str "IMG"), ("ok", .bool true)]) ∧
    buildToolResultContent "observe_scene"
        (.obj [("head_camera_image", .str "IMG"), ("ok", .bool true)]) ≠ [] := by
  have h := toolresult_mapping_amended "observe_scene"
    (.obj [("head_camera_image", .str "IMG"), ("ok", .bool true)]) rfl
  exact ⟨h.1, h.2⟩

/-! ## Claim theorems: AgentLoop

Helper state abbreviations mirroring (definitionally equal to) the
intermediate states of one `agentIter` iteration, and the unfolding
equation of an iteration, used by the loop theorems. -/

/-- State after the thinking status event and the model call. -/
def afterThink (st : LoopState) : LoopState :=
  { st with
      checkIdx := st.checkIdx + 1
      events := st.events ++ [.status "Thinking..."]
      modelCalls := st.modelCalls + 1 }

/-- State after one full model turn was folded into the conversation. -/
def afterTurn (resp : ModelResponse) (st : LoopState) : LoopState :=
  { st with
      checkIdx := st.checkIdx + 1 + 1
      modelCalls := st.modelCalls + 1
      history := st.history ++ [assistantMsg resp.content]
      events := st.events ++ [.status "Thinking..."] ++ blockEvents resp.content
      finalText := st.finalText ++ String.join (textsOf resp.content) }

/-- One unfolding of the loop body, stated with the helper states. -/
theorem agentIter_succ (client : ModelFn) (sc : SendFn) (ov : Value) (signal : Nat → Bool)
    (n : Nat) (st : LoopState) :
    agentIter client sc ov signal (n + 1) st =
      (if signal st.checkIdx then (st, .abortedErr)
       else if signal (st.checkIdx + 1) then (afterThink st, .abortedErr)
       else
         if ((client st.history).content.filter isToolUse).isEmpty ∨
             (client st.history).stop_reason = "end_turn" then
           (afterTurn (client st.history) st, .finished)
         else
           match execTools sc ov signal ((client st.history).content.filter isToolUse)
               (afterTurn (client st.history) st) [] with
           | (st4, none) => (st4, .abortedErr)
           | (st4, some results) =>
             agentIter client sc ov signal n
               { st4 with history := st4.history ++ [("user", .arr results)] }) := rfl

/-- With the abort signal never set, sequential tool execution never
aborts and does not change the model-call count. -/
theorem execTools_no_signal (sc : SendFn) (ov : Value) (blocks : List RespBlock) :
    ∀ (st : LoopState) (acc : List Value),
      (execTools sc ov (fun _ => false) blocks st acc).2.isSome = true ∧
      (execTools sc ov (fun _ => false) blocks st acc).1.modelCalls = st.modelCalls := by
  induction blocks with
  | nil => intro st acc; exact ⟨rfl, rfl⟩
  | cons b rest ih =>
    intro st acc
    cases b with
    | text s => exact ih st acc
    | toolUse bid bname binput => simpa [execTools] using ih _ _

/-- With the abort signal never set and a model that requests at least
one tool on every turn without signalling natural completion, the loop
consumes its entire fuel, making one model call per fuel unit, and
still exits normally. -/
theorem agentIter_no_signal_tools (client : ModelFn) (sc : SendFn) (ov : Value)
    (htools : ∀ h, (client h).content.filter isToolUse ≠ [] ∧
      (client h).stop_reason ≠ "end_turn") :
    ∀ (fuel : Nat) (st : LoopState),
      (agentIter client sc ov (fun _ => false) fuel st).2 = .finished ∧
      (agentIter client sc ov (fun _ => false) fuel st).1.modelCalls =
        st.modelCalls + fuel := by
  intro fuel
  induction fuel with
  | zero => intro st; exact ⟨rfl, rfl⟩
  | succ n ih =>
    intro st
    rw [agentIter_succ]
    have hcond : ¬ ((((client st.history).content.filter isToolUse).isEmpty = true) ∨
        (client st.history).stop_reason = "end_turn") := by
      rintro (hemp | hstop)
      · exact (htools st.history).1 (List.isEmpty_iff.1 hemp)
      · exact (htools st.history).2 hstop
    simp only [if_neg hcond, Bool.false_eq_true, if_false]
    rcases hex : execTools sc ov (fun _ => false) ((client st.history).content.filter isToolUse)
        (afterTurn (client st.history) st) [] with ⟨st4, o⟩
    have hsome := execTools_no_signal sc ov ((client st.history).content.filter isToolUse)
      (afterTurn (client st.history) st) []
    rw [hex] at hsome
    cases o with
    | none => simp at hsome
    | some results =>
      have hmc : st4.modelCalls = st.modelCalls + 1 := hsome.2
      have hih := ih { st4 with history := st4.history ++ [("user", .arr results)] }
      refine ⟨hih.1, ?_⟩
      rw [hih.2]
      show st4.modelCalls + n = st.modelCalls + (n + 1)
      omega

/-- C5: a `processMessage` call against a model that requests at least
one tool on every turn and never signals natural completion terminates
after exactly the configured iteration cap (20) of model turns, not
more, and exits normally: the stream terminal is the ordinary `done`
event carrying the text accumulated so far, with no distinct truncated
signal. -/
theorem loop_stops_at_iteration_cap (client : ModelFn) (sc : SendFn) (ov : Value)
    (userMessage : String) (history0 : List (String × Value))
    (htools : ∀ h, (client h).content.filter isToolUse ≠ [] ∧
      (client h).stop_reason ≠ "end_turn") :
    (processMessage client sc ov (fun _ => false) userMessage history0).outcome = .finished ∧
    (processMessage client sc ov (fun _ => false) userMessage history0).state.modelCalls = 20 ∧
    chatStream client sc ov (fun _ => false) userMessage history0 =
      (processMessage client sc ov (fun _ => false) userMessage history0).state.events ++
        [.done (processMessage client sc ov (fun _ => false) userMessage
          history0).state.finalText] := by
  have h := agentIter_no_signal_tools client sc ov htools maxIterations
    (pmInitState userMessage history0)
  rcases hrun : agentIter client sc ov (fun _ => false) maxIterations
      (pmInitState userMessage history0) with ⟨st, out⟩
  rw [hrun] at h
  cases out with
  | abortedErr => cases h.1
  | finished =>
    have hpm : processMessage client sc ov (fun _ => false) userMessage history0 =
        ⟨st, .finished⟩ := by
      unfold processMessage
      rw [hrun]
    have hmc : st.modelCalls = 20 := by
      have := h.2
      simpa [pmInitState, maxIterations] using this
    refine ⟨by rw [hpm], by rw [hpm]; exact hmc, ?_⟩
    unfold chatStream
    rw [hpm]

/-- A model that requests one tool on every turn and never stops. -/
def alwaysToolClient : ModelFn :=
  fun _ => ⟨[.toolUse "toolu_1" "reset_robot" (.obj [])], "tool_use"⟩

/-- A relay send that always resolves with an empty result object. -/
def okSend : SendFn := fun _ _ _ => .ok (.obj [])

/-- Witness for C5: with the always-tooling model, exactly 20 model
calls are made and the call exits normally. -/
theorem loop_stops_at_iteration_cap_witness :
    (processMessage alwaysToolClient okSend (.obj []) (fun _ => false) "pick up the cube"
      []).outcome = .finished ∧
    (processMessage alwaysToolClient okSend (.obj []) (fun _ => false) "pick up the cube"
      []).state.modelCalls = 20 ∧
    chatStream alwaysToolClient okSend (.obj []) (fun _ => false) "pick up the cube" [] =
      (processMessage alwaysToolClient okSend (.obj []) (fun _ => false) "pick up the cube"
        []).state.events ++
      [.done (processMessage alwaysToolClient okSend (.obj []) (fun _ => false)
        "pick up the cube" []).state.finalText] := by
  have h := loop_stops_at_iteration_cap alwaysToolClient okSend (.obj [])
    "pick up the cube" [] (fun h => ⟨by simp [alwaysToolClient, isToolUse], by simp [alwaysToolClient]⟩)
  exact ⟨h.1, h.2.1, h.2.2⟩

/-- Every relay call issued by a dispatch carries one of the registered
tool actions. -/
theorem executeTool_action_known (n : String) (i : Value) (sc : SendFn) (ov : Value) :
    ∀ c ∈ (executeTool n i sc ov).2, c.action ∈ knownToolNames := by
  intro c hc
  rw [executeTool_calls] at hc
  unfold executeToolBody at hc
  split at hc <;> simp_all [knownToolNames]

/-- Tool execution only adds relay calls with registered actions. -/
theorem execTools_relayLog (sc : SendFn) (ov : Value) (signal : Nat → Bool)
    (blocks : List RespBlock) :
    ∀ (st : LoopState) (acc : List Value),
      (∀ c ∈ st.relayLog, c.action ∈ knownToolNames) →
      ∀ c ∈ (execTools sc ov signal blocks st acc).1.relayLog, c.action ∈ knownToolNames := by
  induction blocks with
  | nil => intro st acc hst; exact hst
  | cons b rest ih =>
    intro st acc hst
    cases b with
    | text s => exact ih st acc hst
    | toolUse bid bname binput =>
      rw [execTools]
      by_cases hsig : signal st.checkIdx
      · simp only [if_pos hsig]
        exact hst
      · simp only [if_neg hsig]
        by_cases hsig2 : signal (st.checkIdx + 1)
        · simp only [if_pos hsig2]
          intro c hc
          rcases List.mem_append.1 hc with hc' | hc'
          · exact hst c hc'
          · exact executeTool_action_known bname binput sc ov c hc'
        · simp only [if_neg hsig2]
          refine ih _ _ ?_
          intro c hc
          rcases List.mem_append.1 hc with hc' | hc'
          · exact hst c hc'
          · exact executeTool_action_known bname binput sc ov c hc'

/-- The capped loop only adds relay calls with registered actions. -/
theorem agentIter_relayLog (client : ModelFn) (sc : SendFn) (ov : Value)
    (signal : Nat → Bool) :
    ∀ (fuel : Nat) (st : LoopState),
      (∀ c ∈ st.relayLog, c.action ∈ knownToolNames) →
      ∀ c ∈ (agentIter client sc ov signal fuel st).1.relayLog,
        c.action ∈ knownToolNames := by
  intro fuel
  induction fuel with
  | zero => intro st hst; exact hst
  | succ n ih =>
    intro st hst
    rw [agentIter_succ]
    by_cases h1 : signal st.checkIdx
    · simp only [if_pos h1]
      exact hst
    · simp only [if_neg h1]
      by_cases h2 : signal (st.checkIdx + 1)
      · simp only [if_pos h2]
        exact hst
      · simp only [if_neg h2]
        by_cases h3 : (((client st.history).content.filter isToolUse).isEmpty = true) ∨
            (client st.history).stop_reason = "end_turn"
        · simp only [if_pos h3]
          exact hst
        · simp only [if_neg h3]
          have hafter : ∀ c ∈ (afterTurn (client st.history) st).relayLog,
              c.action ∈ knownToolNames := hst
          have hex := execTools_relayLog sc ov signal
            ((client st.history).content.filter isToolUse)
            (afterTurn (client st.history) st) [] hafter
          rcases hrun : execTools sc ov signal ((client st.history).content.filter isToolUse)
              (afterTurn (client st.history) st) [] with ⟨st4, o⟩
          rw [hrun] at hex
          cases o with
          | none => exact hex
          | some results => exact ih _ hex

/-- Stream events emitted while the loop runs (before the terminal
event) are progress events: status, text, or tool_call. -/
def isProgressEvent : StreamEvent → Bool
  | .status _ => true
  | .text _ => true
  | .toolCall _ _ => true
  | _ => false

/-- The terminal aborted event, for counting. -/
def isAbortedEvent : StreamEvent → Bool
  | .aborted _ => true
  | _ => false

/-- Block events are progress events. -/
theorem blockEvents_progress (content : List RespBlock) :
    ∀ e ∈ blockEvents content, isProgressEvent e = true := by
  intro e he
  rcases List.mem_map.1 he with ⟨b, _, rfl⟩
  cases b <;> rfl

/-- Tool execution only emits progress events. -/
theorem execTools_events (sc : SendFn) (ov : Value) (signal : Nat → Bool)
    (blocks : List RespBlock) :
    ∀ (st : LoopState) (acc : List Value),
      (∀ e ∈ st.events, isProgressEvent e = true) →
      ∀ e ∈ (execTools sc ov signal blocks st acc).1.events, isProgressEvent e = true := by
  induction blocks with
  | nil => intro st acc hst; exact hst
  | cons b rest ih =>
    intro st acc hst
    cases b with
    | text s => exact ih st acc hst
    | toolUse bid bname binput =>
      rw [execTools]
      by_cases hsig : signal st.checkIdx
      · simp only [if_pos hsig]
        exact hst
      · simp only [if_neg hsig]
        have hst1 : ∀ e ∈ st.events ++ [StreamEvent.status ("Executing: " ++ bname ++ "...")],
            isProgressEvent e = true := by
          intro e he
          rcases List.mem_append.1 he with he' | he'
          · exact hst e he'
          · rcases List.mem_singleton.1 he' with rfl
            rfl
        by_cases hsig2 : signal (st.checkIdx + 1)
        · simp only [if_pos hsig2]
          exact hst1
        · simp only [if_neg hsig2]
          exact ih _ _ hst1

/-- The capped loop only emits progress events. -/
theorem agentIter_events (client : ModelFn) (sc : SendFn) (ov : Value)
    (signal : Nat → Bool) :
    ∀ (fuel : Nat) (st : LoopState),
      (∀ e ∈ st.events, isProgressEvent e = true) →
      ∀ e ∈ (agentIter client sc ov signal fuel st).1.events,
        isProgressEvent e = true := by
  intro fuel
  induction fuel with
  | zero => intro st hst; exact hst
  | succ n ih =>
    intro st hst
    rw [agentIter_succ]
    have hthink : ∀ e ∈ st.events ++ [StreamEvent.status "Thinking..."],
        isProgressEvent e = true := by
      intro e he
      rcases List.mem_append.1 he with he' | he'
      · exact hst e he'
      · rcases List.mem_singleton.1 he' with rfl
        rfl
    have hafter : ∀ e ∈ (afterTurn (client st.history) st).events,
        isProgressEvent e = true := by
      intro e he
      rcases List.mem_append.1 he with he' | he'
      · exact hthink e he'
      · exact blockEvents_progress _ e he'
    by_cases h1 : signal st.checkIdx
    · simp only [if_pos h1]
      exact hst
    · simp only [if_neg h1]
      by_cases h2 : signal (st.checkIdx + 1)
      · simp only [if_pos h2]
        exact hthink
      · simp only [if_neg h2]
        by_cases h3 : (((client st.history).content.filter isToolUse).isEmpty = true) ∨
            (client st.history).stop_reason = "end_turn"
        · simp only [if_pos h3]
          exact hafter
        · simp only [if_neg h3]
          have hex := execTools_events sc ov signal
            ((client st.history).content.filter isToolUse)
            (afterTurn (client st.history) st) [] hafter
          rcases hrun : execTools sc ov signal ((client st.history).content.filter isToolUse)
              (afterTurn (client st.history) st) [] with ⟨st4, o⟩
          rw [hrun] at hex
          cases o with
          | none => exact hex
          | some results => exact ih _ hex

/-- C7: a cancelled `processMessage` call — whatever checkpoint the
abort signal tripped, however many tool invocations were mid-flight —
attempts exactly one best-effort short-timeout `stop_motors` command
through the relay (whose own failure is swallowed: the send function is
arbitrary and its result unused), propagates the aborted outcome to the
caller, and the stream carries exactly one aborted terminal event. -/
theorem cancelled_call_single_stop (client : ModelFn) (sc : SendFn) (ov : Value)
    (signal : Nat → Bool) (userMessage : String) (history0 : List (String × Value))
    (habort : (processMessage client sc ov signal userMessage history0).outcome =
      .abortedErr) :
    ((processMessage client sc ov signal userMessage history0).state.relayLog.countP
      fun c => c.action = "stop_motors") = 1 ∧
    (⟨"stop_motors", .obj [], 5000⟩ : RelayCall) ∈
      (processMessage client sc ov signal userMessage history0).state.relayLog ∧
    chatStream client sc ov signal userMessage history0 =
      (processMessage client sc ov signal userMessage history0).state.events ++
        [.aborted "Interrupted by user"] ∧
    (chatStream client sc ov signal userMessage history0).countP isAbortedEvent = 1 := by
  rcases hrun : agentIter client sc ov signal maxIterations (pmInitState userMessage history0)
    with ⟨st, out⟩
  cases out with
  | finished =>
    exfalso
    have hf : (processMessage client sc ov signal userMessage history0).outcome =
        .finished := by
      unfold processMessage
      rw [hrun]
    rw [habort] at hf
    cases hf
  | abortedErr =>
    have hpm : processMessage client sc ov signal userMessage history0 =
        ⟨{ st with relayLog := st.relayLog ++ [⟨"stop_motors", .obj [], 5000⟩] },
          .abortedErr⟩ := by
      unfold processMessage
      rw [hrun]
    have hlog : ∀ c ∈ st.relayLog, c.action ∈ knownToolNames := by
      have hl := agentIter_relayLog client sc ov signal maxIterations
        (pmInitState userMessage history0) (by intro c hc; cases hc)
      rw [hrun] at hl
      exact hl
    have hevents : ∀ e ∈ st.events, isProgressEvent e = true := by
      have hl := agentIter_events client sc ov signal maxIterations
        (pmInitState userMessage history0) (by intro e he; cases he)
      rw [hrun] at hl
      exact hl
    refine ⟨?_, ?_, ?_, ?_⟩
    · rw [hpm]
      show ((st.relayLog ++ [(⟨"stop_motors", .obj [], 5000⟩ : RelayCall)]).countP
        fun c => c.action = "stop_motors") = 1
      rw [List.countP_append]
      have hz : (st.relayLog.countP fun c => c.action = "stop_motors") = 0 := by
        rw [List.countP_eq_zero]
        intro c hc hcs
        have hcs' : c.action = "stop_motors" := by simpa using hcs
        have hk := hlog c hc
        rw [hcs'] at hk
        exact absurd hk (by decide)
      rw [hz]
      rfl
    · rw [hpm]
      show (⟨"stop_motors", .obj [], 5000⟩ : RelayCall) ∈
        st.relayLog ++ [(⟨"stop_motors", .obj [], 5000⟩ : RelayCall)]
      exact List.mem_append_right _ (List.mem_singleton.2 rfl)
    · simp only [chatStream]
      rw [hpm]
    · simp only [chatStream]
      rw [hpm]
      show ((st.events ++ [StreamEvent.aborted "Interrupted by user"]).countP
        isAbortedEvent) = 1
      rw [List.countP_append]
      have hz : (st.events.countP isAbortedEvent) = 0 := by
        rw [List.countP_eq_zero]
        intro e he hae
        have hp := hevents e he
        cases e <;> simp_all [isProgressEvent, isAbortedEvent]
      rw [hz]
      rfl

/-- Witness for C7: the abort signal set from the start cancels the
call; exactly one stop command and one aborted terminal event result. -/
theorem cancelled_call_single_stop_witness :
    ((processMessage alwaysToolClient okSend (.obj []) (fun _ => true)
        "stop" []).state.relayLog.countP fun c => c.action = "stop_motors") = 1 ∧
    (⟨"stop_motors", .obj [], 5000⟩ : RelayCall) ∈
      (processMessage alwaysToolClient okSend (.obj []) (fun _ => true)
        "stop" []).state.relayLog ∧
    chatStream alwaysToolClient okSend (.obj []) (fun _ => true) "stop" [] =
      (processMessage alwaysToolClient okSend (.obj []) (fun _ => true)
        "stop" []).state.events ++ [.aborted "Interrupted by user"] ∧
    (chatStream alwaysToolClient okSend (.obj []) (fun _ => true) "stop" []).countP
      isAbortedEvent = 1 := by
  have h := cancelled_call_single_stop alwaysToolClient okSend (.obj []) (fun _ => true)
    "stop" [] rfl
  exact ⟨h.1, h.2.1, h.2.2.1, h.2.2.2⟩
